import Mathlib

set_option maxRecDepth 40000


/-! Date core: days since 1970-01-01 (proleptic Gregorian), standard
    era-based conversion algorithms. -/

/-- Day number of the start of year-of-era `yoe` (March-based), within an era. -/
def ydFromYoe (yoe : Int) : Int := 365 * yoe + yoe / 4 - yoe / 100

def dfcY2 (y m : Int) : Int := if m ≤ 2 then y - 1 else y

def dfcEra (y m : Int) : Int := dfcY2 y m / 400

def dfcYoe (y m : Int) : Int := dfcY2 y m - dfcEra y m * 400

def dfcDoy (m d : Int) : Int := (153 * ((m + 9) % 12) + 2) / 5 + d - 1

/-- `(y, m, d)` proleptic-Gregorian to days since 1970-01-01 (Python
    `datetime.date(y, m, d).toordinal() - 719163`). -/
def daysFromCivil (y m d : Int) : Int :=
  dfcEra y m * 146097 + (ydFromYoe (dfcYoe y m) + dfcDoy m d) - 719468

def cfdEra (z : Int) : Int := (z + 719468) / 146097

def cfdDoe (z : Int) : Int := z + 719468 - 146097 * cfdEra z

def cfdYoe (z : Int) : Int :=
  (cfdDoe z - cfdDoe z / 1460 + cfdDoe z / 36524 - cfdDoe z / 146096) / 365

def cfdDoy (z : Int) : Int := cfdDoe z - ydFromYoe (cfdYoe z)

def cfdMp (z : Int) : Int := (5 * cfdDoy z + 2) / 153

def cfdDay (z : Int) : Int := cfdDoy z - (153 * cfdMp z + 2) / 5 + 1

def cfdMonth (z : Int) : Int := if cfdMp z < 10 then cfdMp z + 3 else cfdMp z - 9

def cfdYear (z : Int) : Int :=
  if cfdMonth z ≤ 2 then cfdYoe z + 400 * cfdEra z + 1 else cfdYoe z + 400 * cfdEra z

/-- Days since 1970-01-01 to `(y, m, d)` (Python `date.fromordinal`). -/
def civilFromDays (z : Int) : Int × Int × Int := (cfdYear z, cfdMonth z, cfdDay z)

/-- True if `y` is a leap year in the proleptic Gregorian calendar. -/
def isLeap (y : Int) : Bool := (y % 4 == 0 && y % 100 != 0) || y % 400 == 0

/-- Number of days in month `m` of year `y` (Gregorian). -/
def daysInMonth (y m : Int) : Int :=
  if m = 2 then (if isLeap y then 29 else 28)
  else if m = 4 ∨ m = 6 ∨ m = 9 ∨ m = 11 then 30
  else 31

def MAX_MONTHS : Int := 12

def DAYS_IN_A_WEEK : Int := 7

/-- Python `date.weekday()`: Monday = 0 .. Sunday = 6 (1970-01-01 was a Thursday). -/
def pyWeekday (z : Int) : Int := (z + 3) % 7

/-- `week_dates_array` (bcc_main.py): the 7 dates of the week starting at
    `monday_date`, the `range(DAYS_IN_A_WEEK)` generator unrolled. -/
def week_dates_array (monday_date : Int) : List Int :=
  [monday_date, monday_date + 1, monday_date + 2, monday_date + 3,
   monday_date + 4, monday_date + 5, monday_date + 6]

/-- `week_start` (bcc_main.py): the Monday of the week containing the date. -/
def week_start (date_ : Int) : Int := date_ - pyWeekday date_

/-- `week_dates.sort(key=lambda x: x.day)` followed by `[0]` (bcc_main.py,
    `calc_year_month_ids`): the first element attaining the minimal day-of-month
    (Python's sort is stable, so ties keep the earlier element, as the
    strict-less fold does; the empty case cannot occur). -/
def minDayDate : List Int → Int
  | [] => 0
  | x :: xs => xs.foldl (fun a b => if cfdDay b < cfdDay a then b else a) x

/-- `calc_year_month_ids` (bcc_main.py): `(year_id, month_id, week_start)` of the
    broadcast week containing `date_`. -/
def calc_year_month_ids (date_ : Int) : Int × Int × Int :=
  let week_start_ := week_start date_
  let min_month_day_ := minDayDate (week_dates_array week_start_)
  (cfdYear min_month_day_, cfdMonth min_month_day_, week_start_)

/-- `calc_week_id` (bcc_main.py): `(week_id, year_start_monday)`. The source
    computes `int((monday_date - year_start_monday).days / 7 + 1)` with float
    division; in every call both dates are Mondays, so the difference is an
    exact multiple of 7 and the result is the exact integer quotient plus one. -/
def calc_week_id (year_id_ monday_date : Int) : Int × Int :=
  let year_start_monday := (calc_year_month_ids (daysFromCivil year_id_ 1 1)).2.2
  ((monday_date - year_start_monday) / DAYS_IN_A_WEEK + 1, year_start_monday)

/-- `bcweek_values` (bcc_main.py): `(year_id, qtr_id, month_id, week_id, day_id)`.
    `qtr_id` is the quotient of `divmod(month_id_, 4)` plus one. -/
def bcweek_values (date_ : Int) : Int × Int × Int × Int × Int :=
  let v := calc_year_month_ids date_
  let year_id_ := v.1
  let month_id_ := v.2.1
  let week_start_ := v.2.2
  let w := calc_week_id year_id_ week_start_
  let week_id_ := w.1
  let year_start_ := w.2
  let qtr_id_ := month_id_ / 4 + 1
  let day_id_ := date_ - year_start_ + 1
  (year_id_, qtr_id_, month_id_, week_id_, day_id_)

/-- The dataclass `BroadcastDate` (bcc_main.py). -/
structure BroadcastDate where
  report_date : Int
  year_id : Int
  qtr_id : Int
  month_id : Int
  day_id : Int
  weekday_id : Int
  week_id : Int

/-- `BroadcastDate.__post_init__` (bcc_main.py). -/
def mkBroadcastDate (report_date : Int) : BroadcastDate :=
  let v := bcweek_values report_date
  ⟨report_date, v.1, v.2.1, v.2.2.1, v.2.2.2.2, pyWeekday report_date + 1, v.2.2.2.1⟩

/-- `_max_week_id` (bcc_main.py). -/
def _max_week_id (year_id_ : Int) : Int :=
  let next_bc_year_start := week_start (daysFromCivil (year_id_ + 1) 1 1)
  (mkBroadcastDate (next_bc_year_start - 1)).week_id

/-- Next month's first day, as used by the month-length relation. -/
def nextMonthFirst (y m : Int) : Int :=
  if m = 12 then daysFromCivil (y + 1) 1 1 else daysFromCivil y (m + 1) 1

/-- Python truthiness of an `Optional[int]` value: `None` and `0` are falsy. -/
def optTruthy : Option Int → Prop
  | none => False
  | some v => v ≠ 0

instance : (o : Option Int) → Decidable (optTruthy o)
  | none => Decidable.isFalse id
  | some v => inferInstanceAs (Decidable (v ≠ 0))

/-- `BroadcastCalendarValErr` (bcc_main.py): one exception class with two raise
    sites, distinguished here by the data interpolated into their messages. -/
inductive BroadcastCalendarValErr where
  | weekOverflow (year_id week_id max_week_id : Int)
  | invalidMonth (month_id : Int)
deriving DecidableEq

/-- `reverse_broadcastdate` (bcc_main.py). `raise` is modelled with `Except`;
    the `logging.warning` advisory controlled by `suppress_warnings` has no
    effect on the result and is not modelled. The final `if month_id:` guard is
    always true on the path that reaches it (the first branch already returned
    when both arguments were falsy), so the source's implicit `None`
    fall-through is unreachable. -/
def reverse_broadcastdate (year_id : Int) (week_id month_id : Option Int)
    (suppress_warnings : Bool) : Except BroadcastCalendarValErr Int :=
  let broadcast_year_start := week_start (daysFromCivil year_id 1 1)
  if ¬ (optTruthy week_id ∨ optTruthy month_id) then
    Except.ok broadcast_year_start
  else if optTruthy week_id then
    let max_week_id := _max_week_id year_id
    let w := week_id.getD 0
    if w > max_week_id then
      Except.error (BroadcastCalendarValErr.weekOverflow year_id w max_week_id)
    else
      Except.ok (broadcast_year_start + 7 * (w - 1))
  else
    let m := month_id.getD 0
    if ¬ (1 ≤ m ∧ m ≤ MAX_MONTHS) then
      Except.error (BroadcastCalendarValErr.invalidMonth m)
    else
      Except.ok (week_start (daysFromCivil year_id m 1))

/-- `get_qtr_id` (bcdate.py and bcdate_dataclass.py): `int((m - m % 3) / 3 + 1)`.
    The numerator is an exact multiple of 3, so the float division is exact. -/
def get_qtr_id (month_id_ : Int) : Int := (month_id_ - month_id_ % 3) / 3 + 1

/-- The quarter rule the specification adopts as canonical:
    `floor((month_id − 1) / 3) + 1`. Stated from the spec for comparison with
    the source formulas. -/
def spec_quarter_id (month_id : Int) : Int := (month_id - 1) / 3 + 1


instance : DecidableEq (Except BroadcastCalendarValErr Int) := fun a b =>
  match a, b with
  | Except.error e1, Except.error e2 =>
    if h : e1 = e2 then Decidable.isTrue (congrArg Except.error h)
    else Decidable.isFalse (fun hc => h (Except.error.inj hc))
  | Except.error e1, Except.ok v2 => Decidable.isFalse (fun hc => Except.noConfusion hc)
  | Except.ok v1, Except.error e2 => Decidable.isFalse (fun hc => Except.noConfusion hc)
  | Except.ok v1, Except.ok v2 =>
    if h : v1 = v2 then Decidable.isTrue (congrArg Except.ok h)
    else Decidable.isFalse (fun hc => h (Except.ok.inj hc))

/-- A row of the month-boundaries table (`DateTableRow` in bcdate.py):
    `(year, month_id, month_start)`. -/
structure DateTableRow where
  year : Int
  month_id : Int
  month_start : Int
deriving DecidableEq

/-- `date_df._generate_week_start` (bcdate.py); its `year_` local is unused in
    the source, so this is exactly `week_start`. -/
def _generate_week_start (date__ : Int) : Int := week_start date__

/-- `date_df._generate_month_table` (bcdate.py): one row per month of `year_`
    in the inclusive range `(first, last)`. -/
def _generate_month_table (year_ first last : Int) : List DateTableRow :=
  (List.range (last + 1 - first).toNat).map (fun k =>
    ⟨year_, first + k, _generate_week_start (daysFromCivil year_ (first + k) 1)⟩)

/-- `date_df` (bcdate.py): rows for December of the previous year, every month
    of the pivot date's year, and January of the next year, chained in order. -/
def date_df (date_df_date : Int) : List DateTableRow :=
  _generate_month_table (cfdYear date_df_date - 1) 12 12 ++
    _generate_month_table (cfdYear date_df_date) 1 12 ++
    _generate_month_table (cfdYear date_df_date + 1) 1 1

/-- Pandas `Series.min` over a list of values (`NaN`, here `none`, on empty). -/
def seriesMin : List Int → Option Int
  | [] => none
  | x :: xs => some (xs.foldl min x)

/-- Pandas `Series.max` over a list of values (`NaN`, here `none`, on empty). -/
def seriesMax : List Int → Option Int
  | [] => none
  | x :: xs => some (xs.foldl max x)

/-- `bc_date_values` (bcdate.py). The selections are: greatest
    `month_start ≤ date_`; the first row carrying it (`.values[0]`); the least
    `month_start` among rows of the matching year. An empty selection makes the
    source fail on `.values[0]` (pandas yields `NaN`); that is the `none`
    result here, unreachable for dates inside the table's window. -/
def bc_date_values (date_ : Int) (dates_df_ : List DateTableRow) :
    Option (Int × Int × Int × Int) :=
  match seriesMax ((dates_df_.filter (fun r => r.month_start ≤ date_)).map
      DateTableRow.month_start) with
  | none => none
  | some month_start_ =>
    match dates_df_.find? (fun r => r.month_start == month_start_) with
    | none => none
    | some row =>
      match seriesMin ((dates_df_.filter (fun r => r.year == row.year)).map
          DateTableRow.month_start) with
      | none => none
      | some year_start_ => some (row.year, year_start_, row.month_id, month_start_)

/-- `WKDAY_ABBRV_MAP` (bcdate.py): dict from weekday id (Monday 1 .. Sunday 7)
    to abbreviation; a key outside 1..7 would be a `KeyError`, unreachable
    because `get_weekday_id` always lands in `[1, 7]`. -/
def WKDAY_ABBRV_MAP (i : Int) : String :=
  if i = 1 then "mo" else if i = 2 then "tu" else if i = 3 then "we"
  else if i = 4 then "th" else if i = 5 then "fr" else if i = 6 then "sa"
  else "su"

/-- `get_year_day_id` (bcdate.py): `(report_date_ - year_start + 1 day).days`. -/
def get_year_day_id (report_date_ year_start : Int) : Int :=
  report_date_ - year_start + 1

/-- `get_weekday_id` (bcdate.py). -/
def get_weekday_id (year_day_id_ : Int) : Int := (year_day_id_ - 1) % 7 + 1

/-- `get_week_id` (bcdate.py): `int((yd - wd)/7) + 1`; the numerator is always
    an exact multiple of 7 (`wd = (yd - 1) % 7 + 1`), so the float division and
    truncation give the exact quotient. -/
def get_week_id (year_day_id_ weekday_id_ : Int) : Int :=
  (year_day_id_ - weekday_id_) / 7 + 1

/-- `get_week_start` (bcdate.py). -/
def get_week_start (report_date_ weekday_id_ : Int) : Int :=
  report_date_ - (weekday_id_ - 1)

/-- `_DateTableLimitError` (bcdate.py), plus the pandas failure mode of an
    empty selection (`NaN` month start), which is unreachable for dates the
    bounds check admits. -/
inductive TableError where
  | dateTableLimit
  | emptySelection
deriving DecidableEq

/-- The dataclass `BroadcastDate` of bcdate.py (the table-backed variant;
    named apart from the bcc_main one, which Lean cannot redeclare). -/
structure BroadcastDateFull where
  report_date : Int
  year_id : Int
  year_start : Int
  month_id : Int
  month_start : Int
  year_day_id : Int
  weekday_id : Int
  week_id : Int
  week_start : Int
  wkday_abbr : String
  qtr_id : Int
  prev_wk_year_id : Int
  next_wk_year_id : Int
  prev_wk_week_id : Int
  next_wk_week_id : Int
  prev_wk_qtr_id : Int
  next_wk_qtr_id : Int

/-- `BroadcastDate.__post_init__` (bcdate.py): builds the table from the report
    date itself, rejects dates outside `[min(month_start) + 7, max(month_start)]`
    with `_DateTableLimitError`, then derives every field. -/
def mkBroadcastDateFull (report_date : Int) :
    Except TableError BroadcastDateFull :=
  let dates_df := date_df report_date
  let min_date := (seriesMin (dates_df.map DateTableRow.month_start)).getD 0 + 7
  let max_date := (seriesMax (dates_df.map DateTableRow.month_start)).getD 0
  if ¬ (min_date ≤ report_date ∧ report_date ≤ max_date) then
    Except.error TableError.dateTableLimit
  else
    match bc_date_values report_date dates_df with
    | none => Except.error TableError.emptySelection
    | some (year_id, year_start, month_id, month_start) =>
      let year_day_id := get_year_day_id report_date year_start
      let weekday_id := get_weekday_id year_day_id
      let week_id := get_week_id year_day_id weekday_id
      let week_start_v := get_week_start report_date weekday_id
      let wkday_abbr := WKDAY_ABBRV_MAP weekday_id
      let qtr_id := get_qtr_id month_id
      match bc_date_values (report_date - 7) dates_df with
      | none => Except.error TableError.emptySelection
      | some (prev_wk_year_id, prev_wk_yr_start, prev_wk_month_id, _p4) =>
        match bc_date_values (report_date + 7) dates_df with
        | none => Except.error TableError.emptySelection
        | some (next_wk_year_id, next_wk_yr_start, next_wk_month_id, _n4) =>
          Except.ok ⟨report_date, year_id, year_start, month_id, month_start,
            year_day_id, weekday_id, week_id, week_start_v, wkday_abbr, qtr_id,
            prev_wk_year_id, next_wk_year_id,
            get_week_id (get_year_day_id (report_date - 7) prev_wk_yr_start)
              (get_weekday_id (get_year_day_id (report_date - 7) prev_wk_yr_start)),
            get_week_id (get_year_day_id (report_date + 7) next_wk_yr_start)
              (get_weekday_id (get_year_day_id (report_date + 7) next_wk_yr_start)),
            get_qtr_id prev_wk_month_id, get_qtr_id next_wk_month_id⟩

def tableErrIsOk : Except TableError BroadcastDateFull → Bool
  | Except.ok _ => true
  | Except.error _ => false

theorem cfdDoe_bounds (z : Int) :
    0 ≤ cfdDoe z ∧ cfdDoe z ≤ 146096 ∧ z + 719468 = 146097 * cfdEra z + cfdDoe z := by
  unfold cfdDoe cfdEra
  omega

set_option maxHeartbeats 4000000 in
/-- The computed year-of-era brackets the day-of-era: its year start is at or
    before `doe`, and `doe` is within the year's true length (365 days, 366 in
    the leap years of the March-based year-of-era reckoning). -/
theorem yoeDoyBounds (doe : Int) (h0 : 0 ≤ doe) (h1 : doe ≤ 146096) :
    0 ≤ (doe - doe/1460 + doe/36524 - doe/146096)/365 ∧
    (doe - doe/1460 + doe/36524 - doe/146096)/365 ≤ 399 ∧
    ydFromYoe ((doe - doe/1460 + doe/36524 - doe/146096)/365) ≤ doe ∧
    doe - ydFromYoe ((doe - doe/1460 + doe/36524 - doe/146096)/365) ≤ 364 +
      (((doe - doe/1460 + doe/36524 - doe/146096)/365 + 1)/4
        - ((doe - doe/1460 + doe/36524 - doe/146096)/365)/4)
      - (((doe - doe/1460 + doe/36524 - doe/146096)/365 + 1)/100
        - ((doe - doe/1460 + doe/36524 - doe/146096)/365)/100)
      + (if (doe - doe/1460 + doe/36524 - doe/146096)/365 = 399 then 1 else 0) := by
  unfold ydFromYoe
  have hq0 : 0 ≤ doe / 1460 := by omega
  have hq1 : doe / 1460 ≤ 100 := by omega
  set q1 := doe / 1460 with hdef
  split_ifs with h399
  · interval_cases q1 <;> omega
  · interval_cases q1 <;>
      first
      | omega
      | (have h2a : 0 ≤ doe / 36524 := by omega
         have h2b : doe / 36524 ≤ 4 := by omega
         set q2 := doe / 36524 with hdef2
         interval_cases q2 <;> omega)

theorem cfdYoe_bounds (z : Int) :
    0 ≤ cfdYoe z ∧ cfdYoe z ≤ 399 ∧ ydFromYoe (cfdYoe z) ≤ cfdDoe z ∧
    cfdDoe z - ydFromYoe (cfdYoe z) ≤ 364 +
      ((cfdYoe z + 1)/4 - cfdYoe z/4) - ((cfdYoe z + 1)/100 - cfdYoe z/100) +
      (if cfdYoe z = 399 then 1 else 0) := by
  have h := cfdDoe_bounds z
  have h2 := yoeDoyBounds (cfdDoe z) h.1 h.2.1
  unfold cfdYoe
  exact h2

/-- `daysFromCivil` written through an explicit (era, year-of-era) split. -/
theorem daysFromCivil_decomp (y m d era yoe : Int) (h : dfcY2 y m = yoe + 400 * era)
    (h0 : 0 ≤ yoe) (h1 : yoe ≤ 399) :
    daysFromCivil y m d =
      era * 146097 + (365 * yoe + yoe / 4 - yoe / 100 + dfcDoy m d) - 719468 := by
  simp only [daysFromCivil, dfcEra, dfcYoe, ydFromYoe]
  rw [h]
  have h2 : (yoe + 400 * era) / 400 = era := by omega
  rw [h2]
  omega

theorem cfd_y2 (z : Int) :
    dfcY2 (cfdYear z) (cfdMonth z) = cfdYoe z + 400 * cfdEra z := by
  unfold dfcY2 cfdYear
  split_ifs <;> omega

theorem cfd_mp_bounds (z : Int) : 0 ≤ cfdMp z ∧ cfdMp z ≤ 11 := by
  obtain ⟨hd0, hd1, hde⟩ := cfdDoe_bounds z
  obtain ⟨hy0, hy1, hy2, hy3⟩ := cfdYoe_bounds z
  have hdoy0 : 0 ≤ cfdDoy z := by unfold cfdDoy; omega
  have hdoy1 : cfdDoy z ≤ 365 := by
    unfold cfdDoy
    split_ifs at hy3 <;> omega
  unfold cfdMp
  omega

theorem cfd_doy_eq (z : Int) : dfcDoy (cfdMonth z) (cfdDay z) = cfdDoy z := by
  obtain ⟨hmp0, hmp1⟩ := cfd_mp_bounds z
  unfold dfcDoy cfdMonth cfdDay
  split_ifs with h
  · have h2 : (cfdMp z + 3 + 9) % 12 = cfdMp z := by omega
    rw [h2]
    omega
  · have h2 : (cfdMp z - 9 + 9) % 12 = cfdMp z := by omega
    rw [h2]
    omega

set_option maxHeartbeats 1000000 in
/-- Round trip: converting a day number to a civil date and back is the identity. -/
theorem dfc_cfd (z : Int) :
    daysFromCivil (cfdYear z) (cfdMonth z) (cfdDay z) = z := by
  obtain ⟨hd0, hd1, hde⟩ := cfdDoe_bounds z
  obtain ⟨hy0, hy1, hy2, hy3⟩ := cfdYoe_bounds z
  rw [daysFromCivil_decomp (cfdYear z) (cfdMonth z) (cfdDay z) (cfdEra z) (cfdYoe z)
    (cfd_y2 z) hy0 hy1]
  rw [cfd_doy_eq z]
  have hdoydef : cfdDoy z = cfdDoe z - ydFromYoe (cfdYoe z) := by unfold cfdDoy; ring
  unfold ydFromYoe at hdoydef
  omega

theorem cfdMonth_bounds (z : Int) : 1 ≤ cfdMonth z ∧ cfdMonth z ≤ 12 := by
  obtain ⟨hmp0, hmp1⟩ := cfd_mp_bounds z
  unfold cfdMonth
  split_ifs <;> omega

theorem dfc_day_linear (y m d : Int) :
    daysFromCivil y m d = daysFromCivil y m 1 + d - 1 := by
  simp only [daysFromCivil, dfcDoy]
  ring

theorem cfdDay_ge_one (z : Int) : 1 ≤ cfdDay z := by
  obtain ⟨hmp0, hmp1⟩ := cfd_mp_bounds z
  obtain ⟨hd0, hd1, hde⟩ := cfdDoe_bounds z
  obtain ⟨hy0, hy1, hy2, hy3⟩ := cfdYoe_bounds z
  have hdoy0 : 0 ≤ cfdDoy z := by unfold cfdDoy; omega
  unfold cfdDay cfdMp
  unfold cfdMp at hmp0 hmp1
  omega

theorem isLeap_iff (y : Int) :
    isLeap y = true ↔ ((y % 4 = 0 ∧ ¬ y % 100 = 0) ∨ y % 400 = 0) := by
  simp [isLeap]

set_option maxHeartbeats 1000000 in
/-- The first of the next month is the first of this month plus this month's length. -/
theorem dfc_next_first (y m : Int) (h1 : 1 ≤ m) (h2 : m ≤ 12) :
    daysFromCivil y m 1 + daysInMonth y m =
      (if m = 12 then daysFromCivil (y + 1) 1 1 else daysFromCivil y (m + 1) 1) := by
  interval_cases m <;>
    simp only [daysInMonth, daysFromCivil, dfcEra, dfcYoe, dfcY2, dfcDoy, ydFromYoe] <;>
    norm_num <;>
    first
    | omega
    | (split_ifs with hL
       · rw [isLeap_iff] at hL
         omega
       · rw [isLeap_iff] at hL
         omega)

/-- Leap-year test of a civil year expressed through its year-of-era. -/
theorem leap_shift (yoe era : Int) (h0 : 0 ≤ yoe) (h1 : yoe ≤ 399) :
    (isLeap (yoe + 400 * era + 1) = true) ↔
      (((yoe + 1) % 4 = 0 ∧ ¬ (yoe + 1) % 100 = 0) ∨ yoe = 399) := by
  rw [isLeap_iff]
  have h4 : (yoe + 400 * era + 1) % 4 = (yoe + 1) % 4 := by omega
  have h100 : (yoe + 400 * era + 1) % 100 = (yoe + 1) % 100 := by omega
  have h400 : (yoe + 400 * era + 1) % 400 = (yoe + 1) % 400 := by omega
  rw [h4, h100, h400]
  omega

set_option maxHeartbeats 2000000 in
/-- The day-of-month emitted by `civilFromDays` never exceeds the month length. -/
theorem cfdDay_le (z : Int) : cfdDay z ≤ daysInMonth (cfdYear z) (cfdMonth z) := by
  obtain ⟨hmp0, hmp1⟩ := cfd_mp_bounds z
  obtain ⟨hd0, hd1, hde⟩ := cfdDoe_bounds z
  obtain ⟨hy0, hy1, hy2, hy3⟩ := cfdYoe_bounds z
  have hmpdef : cfdMp z = (5 * cfdDoy z + 2) / 153 := rfl
  have hdoydef : cfdDoy z = cfdDoe z - ydFromYoe (cfdYoe z) := rfl
  have hdaydef : cfdDay z = cfdDoy z - (153 * cfdMp z + 2) / 5 + 1 := rfl
  have hyeardef : cfdYear z =
      if cfdMonth z ≤ 2 then cfdYoe z + 400 * cfdEra z + 1
      else cfdYoe z + 400 * cfdEra z := rfl
  have hmonthdef : cfdMonth z = if cfdMp z < 10 then cfdMp z + 3 else cfdMp z - 9 := rfl
  unfold ydFromYoe at hy2 hy3 hdoydef
  split_ifs at hy3 with h399 <;>
    (set mp := cfdMp z with hmpe
     interval_cases mp <;>
       first
       | (norm_num at hmonthdef
          rw [hmonthdef]
          simp only [daysInMonth]
          norm_num
          omega)
       | (norm_num at hmonthdef
          rw [hmonthdef] at hyeardef
          norm_num at hyeardef
          rw [hmonthdef, hyeardef]
          simp only [daysInMonth]
          norm_num
          simp only [leap_shift (cfdYoe z) (cfdEra z) hy0 hy1]
          clear hyeardef hmonthdef
          have hd4 : ((cfdYoe z + 1) % 4 = 0 ∧ (cfdYoe z + 1) / 4 = cfdYoe z / 4 + 1) ∨
              ((cfdYoe z + 1) % 4 ≠ 0 ∧ (cfdYoe z + 1) / 4 = cfdYoe z / 4) := by omega
          have hd100 : ((cfdYoe z + 1) % 100 = 0 ∧ (cfdYoe z + 1) / 100 = cfdYoe z / 100 + 1) ∨
              ((cfdYoe z + 1) % 100 ≠ 0 ∧ (cfdYoe z + 1) / 100 = cfdYoe z / 100) := by omega
          split_ifs with hL
          · omega
          · omega))

theorem dfc_era_yoe (y m : Int) :
    0 ≤ dfcYoe y m ∧ dfcYoe y m ≤ 399 ∧ dfcY2 y m = dfcYoe y m + 400 * dfcEra y m := by
  unfold dfcYoe dfcEra
  omega

theorem dfcDoy_one_bounds (m : Int) (h1 : 1 ≤ m) (h2 : m ≤ 12) :
    0 ≤ dfcDoy m 1 ∧ dfcDoy m 1 ≤ 337 := by
  unfold dfcDoy
  omega

set_option maxHeartbeats 2000000 in
/-- Reverse round trip on the first of a month: converting `(y, m, 1)` to a day
    number and back is the identity. -/
theorem cfd_dfc_first (y m : Int) (h1 : 1 ≤ m) (h2 : m ≤ 12) :
    civilFromDays (daysFromCivil y m 1) = (y, m, 1) := by
  obtain ⟨hw0, hw1, hw2⟩ := dfc_era_yoe y m
  obtain ⟨hf0, hf1⟩ := dfcDoy_one_bounds m h1 h2
  have hzeq : daysFromCivil y m 1 + 719468 =
      dfcEra y m * 146097 + (ydFromYoe (dfcYoe y m) + dfcDoy m 1) := by
    unfold daysFromCivil
    ring
  have hyd : 0 ≤ ydFromYoe (dfcYoe y m) + dfcDoy m 1 ∧
      ydFromYoe (dfcYoe y m) + dfcDoy m 1 ≤ 146096 := by
    unfold ydFromYoe
    omega
  have hera : cfdEra (daysFromCivil y m 1) = dfcEra y m := by
    unfold cfdEra
    omega
  have hdoe : cfdDoe (daysFromCivil y m 1) = ydFromYoe (dfcYoe y m) + dfcDoy m 1 := by
    unfold cfdDoe
    omega
  obtain ⟨hy0, hy1, hy2, hy3⟩ := cfdYoe_bounds (daysFromCivil y m 1)
  rw [hdoe] at hy2 hy3
  have hyoe : cfdYoe (daysFromCivil y m 1) = dfcYoe y m := by
    unfold ydFromYoe at hy2 hy3
    set A := cfdYoe (daysFromCivil y m 1) with hA
    set B := dfcYoe y m with hB
    rcases lt_trichotomy A B with hlt | heq | hgt
    · -- A < B: doe ≥ yd(B) ≥ yd(A+1) > yd(A) + 364 + inc(A), contradiction with hy3
      exfalso
      have m4 : (A + 1) / 4 ≤ B / 4 := by omega
      have m100 : B / 100 - (A + 1) / 100 ≤ B - (A + 1) := by omega
      have hmono : 365 * (A + 1) + (A + 1) / 4 - (A + 1) / 100 ≤ 365 * B + B / 4 - B / 100 := by
        omega
      split_ifs at hy3 <;> omega
    · exact heq.symm ▸ rfl
    · exfalso
      have m4 : (B + 1) / 4 ≤ A / 4 := by omega
      have m100 : A / 100 - (B + 1) / 100 ≤ A - (B + 1) := by omega
      have hmono : 365 * (B + 1) + (B + 1) / 4 - (B + 1) / 100 ≤ 365 * A + A / 4 - A / 100 := by
        omega
      have j4 : B / 4 ≤ (B + 1) / 4 := by omega
      have j100 : (B + 1) / 100 ≤ B / 100 + 1 := by omega
      split_ifs at hy3 <;> omega
  have hdoy : cfdDoy (daysFromCivil y m 1) = dfcDoy m 1 := by
    unfold cfdDoy
    rw [hdoe, hyoe]
    ring
  have hmp : cfdMp (daysFromCivil y m 1) = (m + 9) % 12 := by
    unfold cfdMp
    rw [hdoy]
    unfold dfcDoy
    omega
  have hmonth : cfdMonth (daysFromCivil y m 1) = m := by
    unfold cfdMonth
    rw [hmp]
    split_ifs <;> omega
  have hday : cfdDay (daysFromCivil y m 1) = 1 := by
    unfold cfdDay
    rw [hdoy, hmp]
    unfold dfcDoy
    omega
  have hyear : cfdYear (daysFromCivil y m 1) = y := by
    unfold cfdYear
    rw [hmonth, hyoe, hera]
    unfold dfcY2 at hw2
    split_ifs at hw2 ⊢ <;> omega
  unfold civilFromDays
  rw [hyear, hmonth, hday]

/-! ## Embedding of src/bcc_main.py

Dates are day numbers (days since 1970-01-01). `datetime.date` attributes
`.year`, `.month`, `.day` are `cfdYear`, `cfdMonth`, `cfdDay`; `date(y, m, d)`
is `daysFromCivil y m d`; `timedelta` arithmetic is integer arithmetic. -/

theorem week_start_le (z : Int) : week_start z ≤ z ∧ z ≤ week_start z + 6 := by
  unfold week_start pyWeekday
  omega

theorem week_start_monday (z : Int) : pyWeekday (week_start z) = 0 := by
  unfold week_start pyWeekday
  omega

theorem week_start_mono (a b : Int) (h : a ≤ b) : week_start a ≤ week_start b := by
  unfold week_start pyWeekday
  omega

theorem week_start_of_monday (m k : Int) (hm : pyWeekday m = 0) (h0 : 0 ≤ k) (h6 : k ≤ 6) :
    week_start (m + k) = m := by
  unfold week_start pyWeekday at *
  omega

theorem daysInMonth_bounds (y m : Int) : 28 ≤ daysInMonth y m ∧ daysInMonth y m ≤ 31 := by
  unfold daysInMonth
  split_ifs <;> omega

theorem nextMonthFirst_day (y m : Int) (h1 : 1 ≤ m) (h2 : m ≤ 12) :
    cfdDay (nextMonthFirst y m) = 1 := by
  unfold nextMonthFirst
  split_ifs with h
  · have h3 := cfd_dfc_first (y + 1) 1 (by omega) (by omega)
    simp only [civilFromDays, Prod.mk.injEq] at h3
    exact h3.2.2
  · have h3 := cfd_dfc_first y (m + 1) (by omega) (by omega)
    simp only [civilFromDays, Prod.mk.injEq] at h3
    exact h3.2.2

theorem minday_cases (m : Int) :
    (minDayDate (week_dates_array m) = m ∨ minDayDate (week_dates_array m) = m + 1 ∨
     minDayDate (week_dates_array m) = m + 2 ∨ minDayDate (week_dates_array m) = m + 3 ∨
     minDayDate (week_dates_array m) = m + 4 ∨ minDayDate (week_dates_array m) = m + 5 ∨
     minDayDate (week_dates_array m) = m + 6) ∧
    cfdDay (minDayDate (week_dates_array m)) ≤ cfdDay m ∧
    cfdDay (minDayDate (week_dates_array m)) ≤ cfdDay (m + 1) ∧
    cfdDay (minDayDate (week_dates_array m)) ≤ cfdDay (m + 2) ∧
    cfdDay (minDayDate (week_dates_array m)) ≤ cfdDay (m + 3) ∧
    cfdDay (minDayDate (week_dates_array m)) ≤ cfdDay (m + 4) ∧
    cfdDay (minDayDate (week_dates_array m)) ≤ cfdDay (m + 5) ∧
    cfdDay (minDayDate (week_dates_array m)) ≤ cfdDay (m + 6) := by
  simp only [minDayDate, week_dates_array, List.foldl_cons, List.foldl_nil]
  split_ifs <;> omega

set_option maxHeartbeats 1000000 in
/-- Month-assignment bracket: the `(year, month)` chosen by the minimum
    day-of-month rule for the week starting at the Monday `m` is exactly the
    broadcast month whose Monday-of-the-first is at or before `m`, with the
    next month's Monday-of-the-first strictly after the week. -/
theorem minday_month_bracket (m : Int) (hm : pyWeekday m = 0) :
    week_start (daysFromCivil (cfdYear (minDayDate (week_dates_array m)))
      (cfdMonth (minDayDate (week_dates_array m))) 1) ≤ m ∧
    m + 7 ≤ week_start (nextMonthFirst (cfdYear (minDayDate (week_dates_array m)))
      (cfdMonth (minDayDate (week_dates_array m)))) := by
  obtain ⟨hmem, hn0, hn1, hn2, hn3, hn4, hn5, hn6⟩ := minday_cases m
  set x := minDayDate (week_dates_array m) with hx
  have hday1 : 1 ≤ cfdDay x := cfdDay_ge_one x
  have hdayle := cfdDay_le x
  obtain ⟨hmb1, hmb2⟩ := cfdMonth_bounds x
  have hrt := dfc_cfd x
  have hlin := dfc_day_linear (cfdYear x) (cfdMonth x) (cfdDay x)
  have hfirst : daysFromCivil (cfdYear x) (cfdMonth x) 1 = x - cfdDay x + 1 := by omega
  have hnext : nextMonthFirst (cfdYear x) (cfdMonth x) =
      daysFromCivil (cfdYear x) (cfdMonth x) 1 + daysInMonth (cfdYear x) (cfdMonth x) := by
    unfold nextMonthFirst
    rw [← dfc_next_first (cfdYear x) (cfdMonth x) hmb1 hmb2]
  obtain ⟨hlen1, hlen2⟩ := daysInMonth_bounds (cfdYear x) (cfdMonth x)
  have hxm : m ≤ x ∧ x ≤ m + 6 := by omega
  unfold pyWeekday at hm
  constructor
  · rw [hfirst]
    unfold week_start pyWeekday
    omega
  · -- the next first is past the whole week
    have hgt : m + 7 ≤ nextMonthFirst (cfdYear x) (cfdMonth x) := by
      by_contra hcon
      push_neg at hcon
      have hnd := nextMonthFirst_day (cfdYear x) (cfdMonth x) hmb1 hmb2
      have hrange : nextMonthFirst (cfdYear x) (cfdMonth x) = m + 1 ∨
          nextMonthFirst (cfdYear x) (cfdMonth x) = m + 2 ∨
          nextMonthFirst (cfdYear x) (cfdMonth x) = m + 3 ∨
          nextMonthFirst (cfdYear x) (cfdMonth x) = m + 4 ∨
          nextMonthFirst (cfdYear x) (cfdMonth x) = m + 5 ∨
          nextMonthFirst (cfdYear x) (cfdMonth x) = m + 6 := by omega
      rcases hrange with h | h | h | h | h | h <;> rw [h] at hnd <;> omega
    unfold week_start pyWeekday
    omega

theorem yearLen (y : Int) :
    365 ≤ daysFromCivil (y + 1) 1 1 - daysFromCivil y 1 1 ∧
    daysFromCivil (y + 1) 1 1 - daysFromCivil y 1 1 ≤ 366 := by
  simp only [daysFromCivil, dfcEra, dfcYoe, dfcY2, dfcDoy, ydFromYoe]
  norm_num
  omega

theorem jan1_mono (y1 y2 : Int) (h : y1 ≤ y2) :
    daysFromCivil y1 1 1 ≤ daysFromCivil y2 1 1 := by
  have key : ∀ k : Nat, daysFromCivil y1 1 1 ≤ daysFromCivil (y1 + k) 1 1 := by
    intro k
    induction k with
    | zero => norm_num
    | succ n ih =>
      have h2 := yearLen (y1 + n)
      have h3 : (y1 + ((n + 1 : Nat) : Int)) = (y1 + n) + 1 := by push_cast; ring
      rw [h3]
      omega
  have h4 : y2 = y1 + ((y2 - y1).toNat : Int) := by omega
  rw [h4]
  exact key _

theorem month_first_step (y m : Int) (h1 : 1 ≤ m) (h2 : m ≤ 11) :
    daysFromCivil y m 1 + 28 ≤ daysFromCivil y (m + 1) 1 := by
  have h := dfc_next_first y m h1 (by omega)
  rw [if_neg (by omega)] at h
  have h3 := daysInMonth_bounds y m
  omega

theorem month_first_last (y : Int) :
    daysFromCivil y 12 1 + 28 ≤ daysFromCivil (y + 1) 1 1 := by
  have h := dfc_next_first y 12 (by omega) (by omega)
  rw [if_pos rfl] at h
  have h3 := daysInMonth_bounds y 12
  omega

theorem month_first_bounds (y m : Int) (h1 : 1 ≤ m) (h2 : m ≤ 12) :
    daysFromCivil y 1 1 ≤ daysFromCivil y m 1 ∧
    nextMonthFirst y m ≤ daysFromCivil (y + 1) 1 1 := by
  have s1 := month_first_step y 1 (by omega) (by omega)
  have s2 := month_first_step y 2 (by omega) (by omega)
  have s3 := month_first_step y 3 (by omega) (by omega)
  have s4 := month_first_step y 4 (by omega) (by omega)
  have s5 := month_first_step y 5 (by omega) (by omega)
  have s6 := month_first_step y 6 (by omega) (by omega)
  have s7 := month_first_step y 7 (by omega) (by omega)
  have s8 := month_first_step y 8 (by omega) (by omega)
  have s9 := month_first_step y 9 (by omega) (by omega)
  have s10 := month_first_step y 10 (by omega) (by omega)
  have s11 := month_first_step y 11 (by omega) (by omega)
  have s12 := month_first_last y
  norm_num at s1 s2 s3 s4 s5 s6 s7 s8 s9 s10 s11
  unfold nextMonthFirst
  interval_cases m <;> norm_num <;> omega

/-- Year identification: a Monday week lying inside broadcast year `y`
    (from the broadcast year start up to a week before the next broadcast
    year start) has its minimum-day-of-month date in civil year `y`. -/
theorem week_year_eq (y m : Int) (hm : pyWeekday m = 0)
    (h1 : week_start (daysFromCivil y 1 1) ≤ m)
    (h2 : m + 7 ≤ week_start (daysFromCivil (y + 1) 1 1)) :
    cfdYear (minDayDate (week_dates_array m)) = y := by
  obtain ⟨hb1, hb2⟩ := minday_month_bracket m hm
  set x := minDayDate (week_dates_array m) with hx
  obtain ⟨hmb1, hmb2⟩ := cfdMonth_bounds x
  obtain ⟨hf1, hf2⟩ := month_first_bounds (cfdYear x) (cfdMonth x) hmb1 hmb2
  rcases lt_trichotomy (cfdYear x) y with hlt | heq | hgt
  · exfalso
    have hmono := jan1_mono (cfdYear x + 1) y (by omega)
    have hwm := week_start_mono (nextMonthFirst (cfdYear x) (cfdMonth x))
      (daysFromCivil y 1 1) (by omega)
    omega
  · exact heq
  · exfalso
    have hmono := jan1_mono (y + 1) (cfdYear x) (by omega)
    have hwm := week_start_mono (daysFromCivil (y + 1) 1 1)
      (daysFromCivil (cfdYear x) 1 1) hmono
    have hwm2 := week_start_mono (daysFromCivil (cfdYear x) 1 1)
      (daysFromCivil (cfdYear x) (cfdMonth x) 1) hf1
    omega

theorem week_start_fix (m : Int) (hm : pyWeekday m = 0) : week_start m = m := by
  unfold week_start pyWeekday at *
  omega

theorem cyi_third (z : Int) : (calc_year_month_ids z).2.2 = week_start z := rfl

theorem bys_facts (y : Int) :
    359 ≤ week_start (daysFromCivil (y + 1) 1 1) - week_start (daysFromCivil y 1 1) ∧
    week_start (daysFromCivil (y + 1) 1 1) - week_start (daysFromCivil y 1 1) ≤ 372 ∧
    (week_start (daysFromCivil (y + 1) 1 1) - week_start (daysFromCivil y 1 1)) % 7 = 0 := by
  have h := yearLen y
  unfold week_start pyWeekday
  omega

/-- Forward conversion on any date of a week inside broadcast year `y`:
    the year id is `y` and the week id counts Mondays from the year start. -/
theorem bcweek_year_week (y z : Int)
    (h1 : week_start (daysFromCivil y 1 1) ≤ week_start z)
    (h2 : week_start z + 7 ≤ week_start (daysFromCivil (y + 1) 1 1)) :
    (bcweek_values z).1 = y ∧
    (bcweek_values z).2.2.2.1 =
      (week_start z - week_start (daysFromCivil y 1 1)) / 7 + 1 := by
  have hyid := week_year_eq y (week_start z) (week_start_monday z) h1 h2
  simp only [bcweek_values, calc_week_id, calc_year_month_ids, DAYS_IN_A_WEEK]
  exact ⟨hyid, by rw [hyid]⟩

theorem max_week_eq (y : Int) :
    _max_week_id y =
      (week_start (daysFromCivil (y + 1) 1 1) - week_start (daysFromCivil y 1 1)) / 7 := by
  obtain ⟨hb1, hb2, hb3⟩ := bys_facts y
  have hmon := week_start_monday (daysFromCivil (y + 1) 1 1)
  have hws : week_start (week_start (daysFromCivil (y + 1) 1 1) - 1) =
      week_start (daysFromCivil (y + 1) 1 1) - 7 := by
    unfold week_start pyWeekday at *
    omega
  have hmain := bcweek_year_week y (week_start (daysFromCivil (y + 1) 1 1) - 1)
    (by omega) (by omega)
  unfold _max_week_id mkBroadcastDate
  rw [hws] at hmain
  have h2 := hmain.2
  simp only [h2]
  omega

theorem rev_week_branch (y w : Int) (hw : w ≠ 0) (mo : Option Int) (s : Bool) :
    reverse_broadcastdate y (some w) mo s =
      if _max_week_id y < w then
        Except.error (BroadcastCalendarValErr.weekOverflow y w (_max_week_id y))
      else
        Except.ok (week_start (daysFromCivil y 1 1) + 7 * (w - 1)) := by
  have ht : optTruthy (some w) := hw
  unfold reverse_broadcastdate
  rw [if_neg (fun hc => hc (Or.inl ht)), if_pos ht]
  rfl

theorem rev_month_branch (y mo : Int) (hm : mo ≠ 0) (s : Bool) :
    reverse_broadcastdate y none (some mo) s =
      if ¬ (1 ≤ mo ∧ mo ≤ 12) then
        Except.error (BroadcastCalendarValErr.invalidMonth mo)
      else
        Except.ok (week_start (daysFromCivil y mo 1)) := by
  have ht : optTruthy (some mo) := hm
  unfold reverse_broadcastdate MAX_MONTHS
  rw [if_neg (fun hc => hc (Or.inr ht)), if_neg (fun hc : optTruthy none => hc)]
  simp only [Option.getD]

theorem rev_both_none (y : Int) (s : Bool) :
    reverse_broadcastdate y none none s =
      Except.ok (week_start (daysFromCivil y 1 1)) := by
  unfold reverse_broadcastdate
  rw [if_pos (fun hc => by rcases hc with h | h <;> exact h)]

theorem rev_falsy_week (y : Int) (w : Option Int) (hw : ¬ optTruthy w)
    (mo : Option Int) (s : Bool) :
    reverse_broadcastdate y w mo s = reverse_broadcastdate y none mo s := by
  cases w with
  | none => rfl
  | some v =>
    have hv : v = 0 := by
      by_contra hc
      exact hw hc
    subst hv
    have e1 : optTruthy (some (0 : Int)) = False := eq_false (fun h => h rfl)
    have e2 : optTruthy (none : Option Int) = False := rfl
    unfold reverse_broadcastdate
    simp [e1, e2]

theorem max_week_pos (y : Int) : 51 ≤ _max_week_id y := by
  have h := max_week_eq y
  obtain ⟨hb1, hb2, hb3⟩ := bys_facts y
  omega

/-- C2: the program's two quarter formulas both disagree with the canonical
    rule. `bcweek_values` uses `divmod(month_id, 4)` (July maps to quarter 2,
    not 3) and `get_qtr_id` uses `(m - m % 3)/3 + 1` (March maps to 2, not 1,
    and December to 5, not 4). -/
theorem C2_quarter_divergence :
    (bcweek_values (daysFromCivil 2023 7 15)).2.2.1 = 7 ∧
    (bcweek_values (daysFromCivil 2023 7 15)).2.1 = 2 ∧
    spec_quarter_id 7 = 3 ∧
    get_qtr_id 3 = 2 ∧ spec_quarter_id 3 = 1 ∧
    get_qtr_id 12 = 5 ∧ spec_quarter_id 12 = 4 := by decide

/-- C4: forward conversion of 2023-01-01 (a Sunday): the week starts on
    2022-12-26, the day-of-month values of that week are [26,27,28,29,30,31,1],
    the minimum-day date is 2023-01-01 itself, so `year_id = 2023` and
    `month_id = 1`, and broadcast year 2023 begins on 2022-12-26. -/
theorem C4_scenario_a :
    pyWeekday (daysFromCivil 2023 1 1) = 6 ∧
    week_start (daysFromCivil 2023 1 1) = daysFromCivil 2022 12 26 ∧
    (week_dates_array (week_start (daysFromCivil 2023 1 1))).map cfdDay =
      [26, 27, 28, 29, 30, 31, 1] ∧
    minDayDate (week_dates_array (week_start (daysFromCivil 2023 1 1))) =
      daysFromCivil 2023 1 1 ∧
    (bcweek_values (daysFromCivil 2023 1 1)).1 = 2023 ∧
    (bcweek_values (daysFromCivil 2023 1 1)).2.2.1 = 1 ∧
    reverse_broadcastdate 2023 none none false =
      Except.ok (daysFromCivil 2022 12 26) := by decide

/-- C5: for every input date, the computed `week_start` is a Monday bracketing
    the date within 6 days, and the computed `year_start` is a Monday at or
    before `week_start`. -/
theorem C5_monday_invariant (z : Int) :
    pyWeekday ((calc_year_month_ids z).2.2) = 0 ∧
    (calc_year_month_ids z).2.2 ≤ z ∧ z ≤ (calc_year_month_ids z).2.2 + 6 ∧
    pyWeekday ((calc_week_id (calc_year_month_ids z).1 ((calc_year_month_ids z).2.2)).2) = 0 ∧
    (calc_week_id (calc_year_month_ids z).1 ((calc_year_month_ids z).2.2)).2 ≤
      (calc_year_month_ids z).2.2 := by
  have h3 := cyi_third z
  rw [h3]
  have h4 : (calc_week_id ((calc_year_month_ids z).1) (week_start z)).2 =
      week_start (daysFromCivil ((calc_year_month_ids z).1) 1 1) := rfl
  rw [h4]
  refine ⟨week_start_monday z, (week_start_le z).1, (week_start_le z).2,
    week_start_monday _, ?_⟩
  have h5 : (calc_year_month_ids z).1 =
      cfdYear (minDayDate (week_dates_array (week_start z))) := rfl
  rw [h5]
  obtain ⟨hb1, hb2⟩ := minday_month_bracket (week_start z) (week_start_monday z)
  obtain ⟨hmb1, hmb2⟩ :=
    cfdMonth_bounds (minDayDate (week_dates_array (week_start z)))
  obtain ⟨hf1, hf2⟩ := month_first_bounds
    (cfdYear (minDayDate (week_dates_array (week_start z))))
    (cfdMonth (minDayDate (week_dates_array (week_start z)))) hmb1 hmb2
  have hwm := week_start_mono _ _ hf1
  omega

/-- C1: round trip. For every `year_id` and every `week_id` in
    `[1, _max_week_id year_id]`, reverse resolution by week succeeds and the
    forward indexer on the resulting date returns the same year and week ids. -/
theorem C1_round_trip (year_id week_id : Int) (h1 : 1 ≤ week_id)
    (h2 : week_id ≤ _max_week_id year_id) :
    reverse_broadcastdate year_id (some week_id) none false =
      Except.ok (week_start (daysFromCivil year_id 1 1) + 7 * (week_id - 1)) ∧
    (bcweek_values (week_start (daysFromCivil year_id 1 1) + 7 * (week_id - 1))).1 =
      year_id ∧
    (bcweek_values (week_start (daysFromCivil year_id 1 1) + 7 * (week_id - 1))).2.2.2.1 =
      week_id := by
  have hmax := max_week_eq year_id
  obtain ⟨hb1, hb2, hb3⟩ := bys_facts year_id
  have hmon0 := week_start_monday (daysFromCivil year_id 1 1)
  have hmon : pyWeekday (week_start (daysFromCivil year_id 1 1) + 7 * (week_id - 1)) = 0 := by
    unfold pyWeekday at *
    omega
  have hwsd := week_start_fix _ hmon
  have hmain := bcweek_year_week year_id
    (week_start (daysFromCivil year_id 1 1) + 7 * (week_id - 1))
    (by rw [hwsd]; omega) (by rw [hwsd]; omega)
  rw [hwsd] at hmain
  refine ⟨?_, hmain.1, ?_⟩
  · rw [rev_week_branch year_id week_id (by omega) none false,
      if_neg (show ¬ _max_week_id year_id < week_id by omega)]
  · rw [hmain.2]
    omega

/-- C3 counterexample: a supplied `week_id = 0` is falsy in Python, so the call
    returns the broadcast year start instead of the claimed
    `broadcast_year_start + (week_id − 1) weeks` (which would be 7 days
    earlier), and no `WeekOverflowError` gate is involved. -/
theorem C3_counterexample :
    reverse_broadcastdate 2023 (some 0) none false =
      Except.ok (week_start (daysFromCivil 2023 1 1)) ∧
    week_start (daysFromCivil 2023 1 1) ≠
      week_start (daysFromCivil 2023 1 1) + 7 * (0 - 1) := by decide

/-- C3 (amended): for nonzero supplied `week_id`, the call fails with
    `WeekOverflowError` carrying the week and the computed maximum exactly when
    `week_id` exceeds `_max_week_id year_id`, and otherwise returns
    `broadcast_year_start + (week_id − 1)` weeks; a supplied `week_id = 0` is
    falsy and, with `month_id` also absent, the call returns the broadcast
    year start and raises nothing; `resolve(2023, week_id=999)` fails with
    the overflow error. -/
theorem C3_week_overflow :
    (∀ (year_id week_id : Int), week_id ≠ 0 →
      ((reverse_broadcastdate year_id (some week_id) none false =
        Except.error (BroadcastCalendarValErr.weekOverflow year_id week_id
          (_max_week_id year_id))) ↔ _max_week_id year_id < week_id) ∧
      ((∃ e, reverse_broadcastdate year_id (some week_id) none false =
        Except.error e) ↔ _max_week_id year_id < week_id) ∧
      (week_id ≤ _max_week_id year_id →
        reverse_broadcastdate year_id (some week_id) none false =
          Except.ok (week_start (daysFromCivil year_id 1 1) + 7 * (week_id - 1)))) ∧
    (∀ year_id : Int, reverse_broadcastdate year_id (some 0) none false =
      Except.ok (week_start (daysFromCivil year_id 1 1))) ∧
    reverse_broadcastdate 2023 (some 999) none false =
      Except.error (BroadcastCalendarValErr.weekOverflow 2023 999 53) := by
  refine ⟨?_, ?_, ?_⟩
  · intro year_id week_id hw
    rw [rev_week_branch year_id week_id hw none false]
    refine ⟨?_, ?_, ?_⟩
    · constructor
      · intro h
        by_contra hc
        rw [if_neg hc] at h
        exact Except.noConfusion h
      · intro h
        rw [if_pos h]
    · constructor
      · rintro ⟨e, he⟩
        by_contra hc
        rw [if_neg hc] at he
        exact Except.noConfusion he
      · intro h
        exact ⟨_, by rw [if_pos h]⟩
    · intro h
      rw [if_neg (by omega)]
  · intro year_id
    rw [rev_falsy_week year_id (some 0) (fun h => h rfl) none false,
      rev_both_none]
  · have hw : (999 : Int) ≠ 0 := by omega
    rw [rev_week_branch 2023 999 hw none false]
    have hmax : _max_week_id 2023 = 53 := by decide
    rw [hmax, if_pos (by omega)]

/-- C3 witness: week 5 of 2023 resolves to the year start plus 4 weeks. -/
theorem C3_week_overflow_witness :
    reverse_broadcastdate 2023 (some 5) none false =
      Except.ok (week_start (daysFromCivil 2023 1 1) + 7 * (5 - 1)) := by
  exact (C3_week_overflow.1 2023 5 (by decide)).2.2 (by decide)

/-- C1 witness: year 2023, week 5. -/
theorem C1_round_trip_witness :
    reverse_broadcastdate 2023 (some 5) none false =
      Except.ok (week_start (daysFromCivil 2023 1 1) + 7 * (5 - 1)) ∧
    (bcweek_values (week_start (daysFromCivil 2023 1 1) + 7 * (5 - 1))).1 = 2023 ∧
    (bcweek_values (week_start (daysFromCivil 2023 1 1) + 7 * (5 - 1))).2.2.2.1 = 5 :=
  C1_round_trip 2023 5 (by decide) (by decide)

/-- C8 counterexample: with `week_id = 0` (falsy) the supplied `month_id` is
    not ignored: the call resolves by month, while the same call with
    `month_id` absent returns the broadcast year start. -/
theorem C8_counterexample :
    reverse_broadcastdate 2023 (some 0) (some 2) false ≠
      reverse_broadcastdate 2023 (some 0) none false := by decide

/-- C8 (amended): for nonzero supplied `week_id`, supplying `month_id` as well
    never changes the outcome: the result (success or failure) is identical to
    the call with `month_id` absent, for both settings of the advisory
    suppression flag. -/
theorem C8_week_wins (y w m : Int) (hw : w ≠ 0) (s : Bool) :
    reverse_broadcastdate y (some w) (some m) s =
      reverse_broadcastdate y (some w) none s := by
  rw [rev_week_branch y w hw (some m) s, rev_week_branch y w hw none s]

/-- C8 witness: year 2023, week 3, month 9. -/
theorem C8_week_wins_witness :
    reverse_broadcastdate 2023 (some 3) (some 9) false =
      reverse_broadcastdate 2023 (some 3) none false :=
  C8_week_wins 2023 3 9 (by decide) false

/-- C10: a negative supplied `week_id` raises no error (it is nonzero, hence
    truthy, and below the maximum) and yields
    `broadcast_year_start + (week_id − 1) weeks`, strictly before the
    broadcast year start. -/
theorem C10_negative_week (y w : Int) (hw : w < 0) :
    reverse_broadcastdate y (some w) none false =
      Except.ok (week_start (daysFromCivil y 1 1) + 7 * (w - 1)) ∧
    week_start (daysFromCivil y 1 1) + 7 * (w - 1) <
      week_start (daysFromCivil y 1 1) := by
  have hmax := max_week_pos y
  constructor
  · rw [rev_week_branch y w (by omega) none false, if_neg (by omega)]
  · omega

/-- C10 witness: year 2023, week −3. -/
theorem C10_negative_week_witness :
    reverse_broadcastdate 2023 (some (-3)) none false =
      Except.ok (week_start (daysFromCivil 2023 1 1) + 7 * (-3 - 1)) ∧
    week_start (daysFromCivil 2023 1 1) + 7 * (-3 - 1) <
      week_start (daysFromCivil 2023 1 1) :=
  C10_negative_week 2023 (-3) (by decide)

/-- C7 counterexample: `month_id = 0` is outside `[1, 12]` but, being falsy,
    the call returns the broadcast year start instead of failing with
    `InvalidMonthError`. -/
theorem C7_counterexample :
    reverse_broadcastdate 2023 none (some 0) false =
      Except.ok (week_start (daysFromCivil 2023 1 1)) ∧
    ¬ (1 ≤ (0 : Int) ∧ (0 : Int) ≤ 12) := by decide

/-- C7 (amended): when the supplied `week_id` is falsy (absent or zero) and
    `month_id` is supplied nonzero, the call fails with `InvalidMonthError`
    exactly when `month_id` is outside `[1, 12]`; for `month_id` in range it
    returns the Monday on or before the first of that Gregorian month; a
    supplied `month_id = 0` is itself falsy and the call returns the
    broadcast year start instead of failing. -/
theorem C7_month_resolution (y m : Int) :
    (∀ w : Option Int, ¬ optTruthy w →
      (m ≠ 0 →
        ((reverse_broadcastdate y w (some m) false =
          Except.error (BroadcastCalendarValErr.invalidMonth m)) ↔ (m < 1 ∨ 12 < m))) ∧
      (1 ≤ m → m ≤ 12 →
        reverse_broadcastdate y w (some m) false =
          Except.ok (week_start (daysFromCivil y m 1))) ∧
      (m = 0 → reverse_broadcastdate y w (some m) false =
        Except.ok (week_start (daysFromCivil y 1 1)))) ∧
    pyWeekday (week_start (daysFromCivil y m 1)) = 0 ∧
    week_start (daysFromCivil y m 1) ≤ daysFromCivil y m 1 := by
  refine ⟨?_, week_start_monday _, (week_start_le _).1⟩
  intro w hw
  rw [rev_falsy_week y w hw (some m) false]
  refine ⟨?_, ?_, ?_⟩
  · intro hm
    rw [rev_month_branch y m hm false]
    constructor
    · intro h
      by_contra hc
      rw [if_neg (by omega)] at h
      exact Except.noConfusion h
    · intro h
      rw [if_pos (by omega)]
  · intro h1 h2
    rw [rev_month_branch y m (by omega) false, if_neg (by omega)]
  · intro h0
    subst h0
    unfold reverse_broadcastdate
    rw [if_pos (fun hc => hc.elim (fun h => h) (fun h => h rfl))]

/-- C7 witness: April 2023 resolves to the Monday on or before 2023-04-01. -/
theorem C7_month_resolution_witness :
    reverse_broadcastdate 2023 none (some 4) false =
      Except.ok (week_start (daysFromCivil 2023 4 1)) :=
  ((C7_month_resolution 2023 4).1 none (by decide)).2.1 (by decide) (by decide)

/-! ## Embedding of src/bcdate.py -/

theorem foldl_min_spec (xs : List Int) : ∀ a : Int,
    (xs.foldl min a = a ∨ xs.foldl min a ∈ xs) ∧ xs.foldl min a ≤ a ∧
    ∀ y ∈ xs, xs.foldl min a ≤ y := by
  induction xs with
  | nil => simp
  | cons b bs ih =>
    intro a
    obtain ⟨ihm, ihle, ihall⟩ := ih (min a b)
    refine ⟨?_, ?_, ?_⟩
    · simp only [List.foldl_cons]
      rcases ihm with h | h
      · rcases min_choice a b with h2 | h2 <;> rw [h, h2]
        · exact Or.inl rfl
        · exact Or.inr (List.mem_cons_self b bs)
      · exact Or.inr (List.mem_cons_of_mem b h)
    · simp only [List.foldl_cons]
      omega
    · intro y hy
      rcases List.mem_cons.mp hy with rfl | hy2
      · simp only [List.foldl_cons]
        have := min_le_right a y
        omega
      · exact ihall y hy2

theorem foldl_max_spec (xs : List Int) : ∀ a : Int,
    (xs.foldl max a = a ∨ xs.foldl max a ∈ xs) ∧ a ≤ xs.foldl max a ∧
    ∀ y ∈ xs, y ≤ xs.foldl max a := by
  induction xs with
  | nil => simp
  | cons b bs ih =>
    intro a
    obtain ⟨ihm, ihle, ihall⟩ := ih (max a b)
    refine ⟨?_, ?_, ?_⟩
    · simp only [List.foldl_cons]
      rcases ihm with h | h
      · rcases max_choice a b with h2 | h2 <;> rw [h, h2]
        · exact Or.inl rfl
        · exact Or.inr (List.mem_cons_self b bs)
      · exact Or.inr (List.mem_cons_of_mem b h)
    · simp only [List.foldl_cons]
      omega
    · intro y hy
      rcases List.mem_cons.mp hy with rfl | hy2
      · simp only [List.foldl_cons]
        have := le_max_right a y
        omega
      · exact ihall y hy2

theorem seriesMin_spec (l : List Int) (h : l ≠ []) :
    ∃ x, seriesMin l = some x ∧ x ∈ l ∧ ∀ y ∈ l, x ≤ y := by
  match l with
  | [] => exact absurd rfl h
  | a :: xs =>
    obtain ⟨hm, hle, hall⟩ := foldl_min_spec xs a
    refine ⟨xs.foldl min a, rfl, ?_, ?_⟩
    · rcases hm with h2 | h2
      · rw [h2]; exact List.mem_cons_self a xs
      · exact List.mem_cons_of_mem a h2
    · intro y hy
      rcases List.mem_cons.mp hy with rfl | hy2
      · exact hle
      · exact hall y hy2

theorem seriesMax_spec (l : List Int) (h : l ≠ []) :
    ∃ x, seriesMax l = some x ∧ x ∈ l ∧ ∀ y ∈ l, y ≤ x := by
  match l with
  | [] => exact absurd rfl h
  | a :: xs =>
    obtain ⟨hm, hle, hall⟩ := foldl_max_spec xs a
    refine ⟨xs.foldl max a, rfl, ?_, ?_⟩
    · rcases hm with h2 | h2
      · rw [h2]; exact List.mem_cons_self a xs
      · exact List.mem_cons_of_mem a h2
    · intro y hy
      rcases List.mem_cons.mp hy with rfl | hy2
      · exact hle
      · exact hall y hy2

theorem seriesMin_eq (l : List Int) (v : Int) (hmem : v ∈ l) (hdom : ∀ y ∈ l, v ≤ y) :
    seriesMin l = some v := by
  obtain ⟨x, hx, hxm, hxall⟩ := seriesMin_spec l (List.ne_nil_of_mem hmem)
  have h1 := hdom x hxm
  have h2 := hxall v hmem
  rw [hx]
  congr 1
  omega

theorem seriesMax_eq (l : List Int) (v : Int) (hmem : v ∈ l) (hdom : ∀ y ∈ l, y ≤ v) :
    seriesMax l = some v := by
  obtain ⟨x, hx, hxm, hxall⟩ := seriesMax_spec l (List.ne_nil_of_mem hmem)
  have h1 := hdom x hxm
  have h2 := hxall v hmem
  rw [hx]
  congr 1
  omega

theorem find?_ms_eq (v : Int) (rows : List DateTableRow) (r : DateTableRow)
    (hr : r ∈ rows) (hv : r.month_start = v)
    (huniq : ∀ r2 ∈ rows, r2.month_start = v → r2 = r) :
    rows.find? (fun r2 => r2.month_start == v) = some r := by
  induction rows with
  | nil => exact absurd hr (List.not_mem_nil r)
  | cons a l ih =>
    by_cases ha : a.month_start = v
    · have : a = r := huniq a (List.mem_cons_self a l) ha
      rw [List.find?_cons_of_pos _ (by simp [ha]), this]
    · rw [List.find?_cons_of_neg _ (by simp [ha])]
      rcases List.mem_cons.mp hr with rfl | hr2
      · exact absurd hv ha
      · exact ih hr2 (fun r2 h2 hv2 => huniq r2 (List.mem_cons_of_mem a h2) hv2)

/-- The table lookup of `bc_date_values`, characterized by the row holding the
    greatest `month_start` at or before the queried date. -/
theorem bc_date_values_eq (d : Int) (rows : List DateTableRow) (r : DateTableRow)
    (hr : r ∈ rows) (hle : r.month_start ≤ d)
    (hdom : ∀ r2 ∈ rows, r2.month_start ≤ d → r2.month_start ≤ r.month_start)
    (huniq : ∀ r2 ∈ rows, r2.month_start = r.month_start → r2 = r) :
    ∃ ys, bc_date_values d rows = some (r.year, ys, r.month_id, r.month_start) := by
  have hmax : seriesMax ((rows.filter (fun r2 => r2.month_start ≤ d)).map
      DateTableRow.month_start) = some r.month_start := by
    apply seriesMax_eq
    · exact List.mem_map_of_mem _ (List.mem_filter.mpr ⟨hr, by simp [hle]⟩)
    · intro y hy
      obtain ⟨r2, hr2, hy2⟩ := List.mem_map.mp hy
      obtain ⟨hr2m, hr2le⟩ := List.mem_filter.mp hr2
      rw [← hy2]
      exact hdom r2 hr2m (by simpa using hr2le)
  have hfind : rows.find? (fun r2 => r2.month_start == r.month_start) = some r :=
    find?_ms_eq r.month_start rows r hr rfl huniq
  have hys : ∃ ys, seriesMin ((rows.filter (fun r2 => r2.year == r.year)).map
      DateTableRow.month_start) = some ys := by
    have hne : (rows.filter (fun r2 => r2.year == r.year)).map
        DateTableRow.month_start ≠ [] := by
      have hmem2 : r.month_start ∈ (rows.filter (fun r2 => r2.year == r.year)).map
          DateTableRow.month_start :=
        List.mem_map_of_mem _ (List.mem_filter.mpr ⟨hr, by simp⟩)
      exact List.ne_nil_of_mem hmem2
    obtain ⟨x, hx, _, _⟩ := seriesMin_spec _ hne
    exact ⟨x, hx⟩
  obtain ⟨ys, hys2⟩ := hys
  refine ⟨ys, ?_⟩
  unfold bc_date_values
  rw [hmax]
  dsimp only
  rw [hfind]
  dsimp only
  rw [hys2]

/-- The table lookup succeeds whenever some row starts at or before the date. -/
theorem bc_date_values_isSome (d : Int) (rows : List DateTableRow)
    (h : ∃ r ∈ rows, r.month_start ≤ d) :
    ∃ v, bc_date_values d rows = some v := by
  obtain ⟨r0, hr0, hr0le⟩ := h
  have hne : (rows.filter (fun r2 => r2.month_start ≤ d)).map
      DateTableRow.month_start ≠ [] := by
    have hmem2 : r0.month_start ∈ (rows.filter (fun r2 => r2.month_start ≤ d)).map
        DateTableRow.month_start :=
      List.mem_map_of_mem _ (List.mem_filter.mpr ⟨hr0, by simp [hr0le]⟩)
    exact List.ne_nil_of_mem hmem2
  obtain ⟨x, hx, hxm, _⟩ := seriesMax_spec _ hne
  obtain ⟨r1, hr1, hr1x⟩ := List.mem_map.mp hxm
  have hf : (rows.find? (fun r3 => r3.month_start == x)).isSome := by
    rw [List.find?_isSome]
    exact ⟨r1, (List.mem_filter.mp hr1).1, by simp [hr1x]⟩
  obtain ⟨r2, hr2⟩ := Option.isSome_iff_exists.mp hf
  have hr2mem : r2 ∈ rows := List.mem_of_find?_eq_some hr2
  have hys : ∃ ysv, seriesMin ((rows.filter (fun r3 => r3.year == r2.year)).map
      DateTableRow.month_start) = some ysv := by
    have hne2 : (rows.filter (fun r3 => r3.year == r2.year)).map
        DateTableRow.month_start ≠ [] := by
      have hmem3 : r2.month_start ∈ (rows.filter (fun r3 => r3.year == r2.year)).map
          DateTableRow.month_start :=
        List.mem_map_of_mem _ (List.mem_filter.mpr ⟨hr2mem, by simp⟩)
      exact List.ne_nil_of_mem hmem3
    obtain ⟨xm, hxm2, _, _⟩ := seriesMin_spec _ hne2
    exact ⟨xm, hxm2⟩
  obtain ⟨ysv, hysv⟩ := hys
  refine ⟨(r2.year, ysv, r2.month_id, x), ?_⟩
  unfold bc_date_values
  rw [hx]
  dsimp only
  rw [hr2]
  dsimp only
  rw [hysv]

/-- C9 counterexample: for report date 2022-12-26 the date equals the table's
    maximum `month_start`, i.e. it lies outside the half-open window
    `[min, max)`, where the claim demands a `TableBoundsError`; yet the code
    accepts it and computes broadcast indices. -/
theorem C9_counterexample :
    ¬ (daysFromCivil 2022 12 26 <
      (seriesMax ((date_df (daysFromCivil 2022 12 26)).map
        DateTableRow.month_start)).getD 0) ∧
    tableErrIsOk (mkBroadcastDateFull (daysFromCivil 2022 12 26)) = true := by
  decide

theorem date_df_ne_nil (p : Int) :
    (date_df p).map DateTableRow.month_start ≠ [] := by
  unfold date_df _generate_month_table
  intro hc
  simp [List.map_eq_nil] at hc

/-- C9 (amended): construction fails with `_DateTableLimitError` exactly when
    the report date is outside the closed window
    `[min(month_start) + 7 days, max(month_start)]` of its own table; inside
    the window it succeeds (so indices are only ever computed there). -/
theorem C9_table_bounds (d : Int) :
    (d < (seriesMin ((date_df d).map DateTableRow.month_start)).getD 0 + 7 ∨
        (seriesMax ((date_df d).map DateTableRow.month_start)).getD 0 < d →
      mkBroadcastDateFull d = Except.error TableError.dateTableLimit) ∧
    ((seriesMin ((date_df d).map DateTableRow.month_start)).getD 0 + 7 ≤ d →
      d ≤ (seriesMax ((date_df d).map DateTableRow.month_start)).getD 0 →
      ∃ v, mkBroadcastDateFull d = Except.ok v) := by
  constructor
  · intro h
    simp only [mkBroadcastDateFull]
    rw [if_pos (by omega)]
  · intro h1 h2
    obtain ⟨minv, hminv, hminm, hminall⟩ :=
      seriesMin_spec ((date_df d).map DateTableRow.month_start) (date_df_ne_nil d)
    have hgd : (seriesMin ((date_df d).map DateTableRow.month_start)).getD 0 = minv := by
      rw [hminv]
      rfl
    rw [hgd] at h1
    obtain ⟨rm, hrm, hrmv⟩ := List.mem_map.mp hminm
    have hex : ∀ e : Int, minv ≤ e → ∃ r ∈ date_df d, r.month_start ≤ e := by
      intro e he
      exact ⟨rm, hrm, by omega⟩
    obtain ⟨v1, hv1⟩ := bc_date_values_isSome d (date_df d) (hex d (by omega))
    obtain ⟨v2, hv2⟩ := bc_date_values_isSome (d - 7) (date_df d) (hex (d - 7) (by omega))
    obtain ⟨v3, hv3⟩ := bc_date_values_isSome (d + 7) (date_df d) (hex (d + 7) (by omega))
    obtain ⟨a1, b1, c1, e1⟩ := v1
    obtain ⟨a2, b2, c2, e2⟩ := v2
    obtain ⟨a3, b3, c3, e3⟩ := v3
    simp only [mkBroadcastDateFull]
    rw [if_neg (by rw [hgd]; omega)]
    rw [hv1]
    dsimp only
    rw [hv2]
    dsimp only
    rw [hv3]
    dsimp only
    exact ⟨_, rfl⟩

/-- C9 witness: mid-2023 is inside its own window and construction succeeds. -/
theorem C9_table_bounds_witness :
    ∃ v, mkBroadcastDateFull (daysFromCivil 2023 6 15) = Except.ok v :=
  (C9_table_bounds (daysFromCivil 2023 6 15)).2 (by decide) (by decide)

theorem ws_gap (a b : Int) (h : a + 28 ≤ b) : week_start a + 22 ≤ week_start b := by
  unfold week_start pyWeekday
  omega

set_option maxHeartbeats 2000000 in
theorem month_first_mono (y j k : Int) (h1 : 1 ≤ j) (h2 : j ≤ k) (h3 : k ≤ 12) :
    daysFromCivil y j 1 ≤ daysFromCivil y k 1 := by
  have s1 := month_first_step y 1 (by omega) (by omega)
  have s2 := month_first_step y 2 (by omega) (by omega)
  have s3 := month_first_step y 3 (by omega) (by omega)
  have s4 := month_first_step y 4 (by omega) (by omega)
  have s5 := month_first_step y 5 (by omega) (by omega)
  have s6 := month_first_step y 6 (by omega) (by omega)
  have s7 := month_first_step y 7 (by omega) (by omega)
  have s8 := month_first_step y 8 (by omega) (by omega)
  have s9 := month_first_step y 9 (by omega) (by omega)
  have s10 := month_first_step y 10 (by omega) (by omega)
  have s11 := month_first_step y 11 (by omega) (by omega)
  norm_num at s1 s2 s3 s4 s5 s6 s7 s8 s9 s10 s11
  have hj : j ≤ 12 := by omega
  have hk : 1 ≤ k := by omega
  interval_cases j <;> interval_cases k <;> omega

theorem date_df_eq (p : Int) :
    date_df p =
      [⟨cfdYear p - 1, 12, week_start (daysFromCivil (cfdYear p - 1) 12 1)⟩,
       ⟨cfdYear p, 1, week_start (daysFromCivil (cfdYear p) 1 1)⟩,
       ⟨cfdYear p, 2, week_start (daysFromCivil (cfdYear p) 2 1)⟩,
       ⟨cfdYear p, 3, week_start (daysFromCivil (cfdYear p) 3 1)⟩,
       ⟨cfdYear p, 4, week_start (daysFromCivil (cfdYear p) 4 1)⟩,
       ⟨cfdYear p, 5, week_start (daysFromCivil (cfdYear p) 5 1)⟩,
       ⟨cfdYear p, 6, week_start (daysFromCivil (cfdYear p) 6 1)⟩,
       ⟨cfdYear p, 7, week_start (daysFromCivil (cfdYear p) 7 1)⟩,
       ⟨cfdYear p, 8, week_start (daysFromCivil (cfdYear p) 8 1)⟩,
       ⟨cfdYear p, 9, week_start (daysFromCivil (cfdYear p) 9 1)⟩,
       ⟨cfdYear p, 10, week_start (daysFromCivil (cfdYear p) 10 1)⟩,
       ⟨cfdYear p, 11, week_start (daysFromCivil (cfdYear p) 11 1)⟩,
       ⟨cfdYear p, 12, week_start (daysFromCivil (cfdYear p) 12 1)⟩,
       ⟨cfdYear p + 1, 1, week_start (daysFromCivil (cfdYear p + 1) 1 1)⟩] := by
  rfl

/-- Domination step for the table lookup: a month start of the pivot year that
    is at or before the queried date is at or before the month start of the
    broadcast month identified for that date. -/
theorem mid_dom (py M j d : Int) (hj1 : 1 ≤ j) (hj2 : j ≤ 12)
    (hM1 : 1 ≤ M) (hM2 : M ≤ 12)
    (hs2 : d < week_start (nextMonthFirst py M))
    (hle2 : week_start (daysFromCivil py j 1) ≤ d) :
    week_start (daysFromCivil py j 1) ≤ week_start (daysFromCivil py M 1) := by
  rcases le_or_lt j M with h | h
  · exact week_start_mono _ _ (month_first_mono py j M hj1 h hM2)
  · exfalso
    have hM11 : M ≤ 11 := by omega
    have hnx : nextMonthFirst py M = daysFromCivil py (M + 1) 1 := by
      unfold nextMonthFirst
      rw [if_neg (by omega)]
    rw [hnx] at hs2
    have hm := week_start_mono _ _ (month_first_mono py (M + 1) j (by omega) (by omega) hj2)
    omega

/-- Uniqueness step: two equal month starts inside the pivot year force the
    same month, given the identified month's bracketing of the date. -/
theorem mid_uniq (py M j d : Int) (hj1 : 1 ≤ j) (hj2 : j ≤ 12)
    (hM1 : 1 ≤ M) (hM2 : M ≤ 12)
    (hs1 : week_start (daysFromCivil py M 1) ≤ d)
    (hs2 : d < week_start (nextMonthFirst py M))
    (heq : week_start (daysFromCivil py j 1) = week_start (daysFromCivil py M 1)) :
    j = M := by
  by_contra hc
  rcases lt_or_gt_of_ne hc with h | h
  · have hst := month_first_step py j hj1 (by omega)
    have hg := ws_gap _ _ hst
    have hm := week_start_mono _ _ (month_first_mono py (j + 1) M (by omega) (by omega) hM2)
    omega
  · have hM11 : M ≤ 11 := by omega
    have hnx : nextMonthFirst py M = daysFromCivil py (M + 1) 1 := by
      unfold nextMonthFirst
      rw [if_neg (by omega)]
    rw [hnx] at hs2
    have hm := week_start_mono _ _ (month_first_mono py (M + 1) j (by omega) (by omega) hj2)
    omega

set_option maxHeartbeats 8000000 in
/-- C6: inside the cached window `[min(month_start), max(month_start))`, the
    table lookup of `bc_date_values` returns the same `(year_id, month_id)`
    pair as the direct per-week minimum-day-of-month computation of
    `calc_year_month_ids`. -/
theorem C6_table_equiv (p d : Int)
    (h1 : (seriesMin ((date_df p).map DateTableRow.month_start)).getD 0 ≤ d)
    (h2 : d < (seriesMax ((date_df p).map DateTableRow.month_start)).getD 0) :
    ∃ v, bc_date_values d (date_df p) = some v ∧
      v.1 = (calc_year_month_ids d).1 ∧ v.2.2.1 = (calc_year_month_ids d).2.1 := by
  obtain ⟨hb1, hb2⟩ := minday_month_bracket (week_start d) (week_start_monday d)
  obtain ⟨hmb1, hmb2⟩ := cfdMonth_bounds (minDayDate (week_dates_array (week_start d)))
  obtain ⟨hfb1, hfb2⟩ := month_first_bounds
    (cfdYear (minDayDate (week_dates_array (week_start d))))
    (cfdMonth (minDayDate (week_dates_array (week_start d)))) hmb1 hmb2
  have hcyi1 : (calc_year_month_ids d).1 =
      cfdYear (minDayDate (week_dates_array (week_start d))) := rfl
  have hcyi2 : (calc_year_month_ids d).2.1 =
      cfdMonth (minDayDate (week_dates_array (week_start d))) := rfl
  rw [hcyi1, hcyi2]
  obtain ⟨Y, hYdef⟩ : ∃ t, cfdYear (minDayDate (week_dates_array (week_start d))) = t :=
    ⟨_, rfl⟩
  obtain ⟨M, hMdef⟩ : ∃ t, cfdMonth (minDayDate (week_dates_array (week_start d))) = t :=
    ⟨_, rfl⟩
  rw [hYdef] at hb1 hb2 hfb1 hfb2 ⊢
  rw [hMdef] at hb1 hb2 hmb1 hmb2 hfb1 hfb2 ⊢
  obtain ⟨py, hpydef⟩ : ∃ t, cfdYear p = t := ⟨_, rfl⟩
  have hdf := date_df_eq p
  rw [hpydef] at hdf
  have hws := week_start_le d
  have hsand1 : week_start (daysFromCivil Y M 1) ≤ d := by omega
  have hsand2 : d < week_start (nextMonthFirst Y M) := by omega
  clear hcyi1 hcyi2 hYdef hMdef hpydef hb1 hb2 hws
  have g0 : week_start (daysFromCivil (py - 1) 12 1) + 22 ≤
      week_start (daysFromCivil py 1 1) := by
    have h := month_first_last (py - 1)
    have he : py - 1 + 1 = py := by ring
    rw [he] at h
    exact ws_gap _ _ h
  have g1 : week_start (daysFromCivil py 1 1) + 22 ≤
      week_start (daysFromCivil py 2 1) := by
    have h := month_first_step py 1 (by omega) (by omega)
    norm_num at h
    exact ws_gap _ _ h
  have g2 : week_start (daysFromCivil py 2 1) + 22 ≤
      week_start (daysFromCivil py 3 1) := by
    have h := month_first_step py 2 (by omega) (by omega)
    norm_num at h
    exact ws_gap _ _ h
  have g3 : week_start (daysFromCivil py 3 1) + 22 ≤
      week_start (daysFromCivil py 4 1) := by
    have h := month_first_step py 3 (by omega) (by omega)
    norm_num at h
    exact ws_gap _ _ h
  have g4 : week_start (daysFromCivil py 4 1) + 22 ≤
      week_start (daysFromCivil py 5 1) := by
    have h := month_first_step py 4 (by omega) (by omega)
    norm_num at h
    exact ws_gap _ _ h
  have g5 : week_start (daysFromCivil py 5 1) + 22 ≤
      week_start (daysFromCivil py 6 1) := by
    have h := month_first_step py 5 (by omega) (by omega)
    norm_num at h
    exact ws_gap _ _ h
  have g6 : week_start (daysFromCivil py 6 1) + 22 ≤
      week_start (daysFromCivil py 7 1) := by
    have h := month_first_step py 6 (by omega) (by omega)
    norm_num at h
    exact ws_gap _ _ h
  have g7 : week_start (daysFromCivil py 7 1) + 22 ≤
      week_start (daysFromCivil py 8 1) := by
    have h := month_first_step py 7 (by omega) (by omega)
    norm_num at h
    exact ws_gap _ _ h
  have g8 : week_start (daysFromCivil py 8 1) + 22 ≤
      week_start (daysFromCivil py 9 1) := by
    have h := month_first_step py 8 (by omega) (by omega)
    norm_num at h
    exact ws_gap _ _ h
  have g9 : week_start (daysFromCivil py 9 1) + 22 ≤
      week_start (daysFromCivil py 10 1) := by
    have h := month_first_step py 9 (by omega) (by omega)
    norm_num at h
    exact ws_gap _ _ h
  have g10 : week_start (daysFromCivil py 10 1) + 22 ≤
      week_start (daysFromCivil py 11 1) := by
    have h := month_first_step py 10 (by omega) (by omega)
    norm_num at h
    exact ws_gap _ _ h
  have g11 : week_start (daysFromCivil py 11 1) + 22 ≤
      week_start (daysFromCivil py 12 1) := by
    have h := month_first_step py 11 (by omega) (by omega)
    norm_num at h
    exact ws_gap _ _ h
  have g12 : week_start (daysFromCivil py 12 1) + 22 ≤
      week_start (daysFromCivil (py + 1) 1 1) :=
    ws_gap _ _ (month_first_last py)
  have hmin : seriesMin ((date_df p).map DateTableRow.month_start) =
      some (week_start (daysFromCivil (py - 1) 12 1)) := by
    apply seriesMin_eq
    · rw [hdf]
      simp
    · intro yv hyv
      rw [hdf] at hyv
      simp at hyv
      rcases hyv with rfl | rfl | rfl | rfl | rfl | rfl | rfl | rfl | rfl | rfl | rfl | rfl | rfl | rfl <;> omega
  have hmax : seriesMax ((date_df p).map DateTableRow.month_start) =
      some (week_start (daysFromCivil (py + 1) 1 1)) := by
    apply seriesMax_eq
    · rw [hdf]
      simp
    · intro yv hyv
      rw [hdf] at hyv
      simp at hyv
      rcases hyv with rfl | rfl | rfl | rfl | rfl | rfl | rfl | rfl | rfl | rfl | rfl | rfl | rfl | rfl <;> omega
  rw [show (seriesMin ((date_df p).map DateTableRow.month_start)).getD 0 =
    week_start (daysFromCivil (py - 1) 12 1) from by rw [hmin]; rfl] at h1
  rw [show (seriesMax ((date_df p).map DateTableRow.month_start)).getD 0 =
    week_start (daysFromCivil (py + 1) 1 1) from by rw [hmax]; rfl] at h2
  clear hmin hmax
  have hYub : Y ≤ py := by
    by_contra hc
    push_neg at hc
    rcases (by omega : Y = py + 1 ∨ py + 2 ≤ Y) with hY1 | hY2
    · subst hY1
      rcases (by omega : M = 1 ∨ 2 ≤ M) with hM1 | hM2
      · subst hM1
        omega
      · have hmm := month_first_mono (py + 1) 2 M (by omega) hM2 hmb2
        have hstep := month_first_step (py + 1) 1 (by omega) (by omega)
        norm_num at hstep
        have hw1 := week_start_le (daysFromCivil (py + 1) M 1)
        have hw2 := week_start_le (daysFromCivil (py + 1) 1 1)
        omega
    · have hj := jan1_mono (py + 2) Y (by omega)
      have hyl := yearLen (py + 1)
      have he : py + 1 + 1 = py + 2 := by ring
      rw [he] at hyl
      have hw1 := week_start_le (daysFromCivil Y 1 1)
      have hw2 := week_start_le (daysFromCivil (py + 1) 1 1)
      have hwm := week_start_mono _ _ hfb1
      omega
  have hYlb : py - 1 ≤ Y := by
    by_contra hc
    push_neg at hc
    have hj := jan1_mono (Y + 1) (py - 1) (by omega)
    have hmm := month_first_mono (py - 1) 1 12 (by omega) (by omega) (by omega)
    have hwm := week_start_mono (nextMonthFirst Y M)
      (daysFromCivil (py - 1) 12 1) (by omega)
    omega
  have hM12 : Y = py - 1 → M = 12 := by
    intro hYm
    by_contra hc
    have hnext : nextMonthFirst Y M = daysFromCivil (py - 1) (M + 1) 1 := by
      unfold nextMonthFirst
      rw [if_neg (by omega), hYm]
    have hmm := month_first_mono (py - 1) (M + 1) 12 (by omega) (by omega) (by omega)
    have hwm := week_start_mono (nextMonthFirst Y M)
      (daysFromCivil (py - 1) 12 1) (by omega)
    omega
  clear hfb1 hfb2
  rcases (by omega : Y = py - 1 ∨ Y = py) with hYA | hYB
  · -- the December row of the previous year
    have hM := hM12 hYA
    subst hM
    subst hYA
    have hnx : week_start (nextMonthFirst (py - 1) 12) =
        week_start (daysFromCivil py 1 1) := by
      unfold nextMonthFirst
      rw [if_pos rfl, show py - 1 + 1 = py from by ring]
    rw [hnx] at hsand2
    obtain ⟨ys, hys⟩ := bc_date_values_eq d (date_df p)
      ⟨py - 1, 12, week_start (daysFromCivil (py - 1) 12 1)⟩
      (by rw [hdf]; simp) h1
      (by
        intro r2 hr2 hle2
        rw [hdf] at hr2
        simp at hr2
        rcases hr2 with rfl | rfl | rfl | rfl | rfl | rfl | rfl | rfl | rfl | rfl | rfl | rfl | rfl | rfl
        · dsimp only at hle2 ⊢
          omega
        · dsimp only at hle2 ⊢
          omega
        · dsimp only at hle2 ⊢
          omega
        · dsimp only at hle2 ⊢
          omega
        · dsimp only at hle2 ⊢
          omega
        · dsimp only at hle2 ⊢
          omega
        · dsimp only at hle2 ⊢
          omega
        · dsimp only at hle2 ⊢
          omega
        · dsimp only at hle2 ⊢
          omega
        · dsimp only at hle2 ⊢
          omega
        · dsimp only at hle2 ⊢
          omega
        · dsimp only at hle2 ⊢
          omega
        · dsimp only at hle2 ⊢
          omega
        · dsimp only at hle2 ⊢
          omega)
      (by
        intro r2 hr2 heq
        rw [hdf] at hr2
        simp at hr2
        rcases hr2 with rfl | rfl | rfl | rfl | rfl | rfl | rfl | rfl | rfl | rfl | rfl | rfl | rfl | rfl
        · rfl
        · dsimp only at heq
          exfalso
          omega
        · dsimp only at heq
          exfalso
          omega
        · dsimp only at heq
          exfalso
          omega
        · dsimp only at heq
          exfalso
          omega
        · dsimp only at heq
          exfalso
          omega
        · dsimp only at heq
          exfalso
          omega
        · dsimp only at heq
          exfalso
          omega
        · dsimp only at heq
          exfalso
          omega
        · dsimp only at heq
          exfalso
          omega
        · dsimp only at heq
          exfalso
          omega
        · dsimp only at heq
          exfalso
          omega
        · dsimp only at heq
          exfalso
          omega
        · dsimp only at heq
          exfalso
          omega)
    exact ⟨_, hys, rfl, rfl⟩
  · -- a month row of the pivot year
    replace hYB := hYB.symm
    subst hYB
    clear hYub hYlb hM12
    have hmem : (⟨py, M, week_start (daysFromCivil py M 1)⟩ : DateTableRow) ∈
        date_df p := by
      rw [hdf]
      rcases (by omega : M = 1 ∨ M = 2 ∨ M = 3 ∨ M = 4 ∨ M = 5 ∨ M = 6 ∨ M = 7 ∨
        M = 8 ∨ M = 9 ∨ M = 10 ∨ M = 11 ∨ M = 12) with
        rfl | rfl | rfl | rfl | rfl | rfl | rfl | rfl | rfl | rfl | rfl | rfl <;> simp
    obtain ⟨ys, hys⟩ := bc_date_values_eq d (date_df p)
      ⟨py, M, week_start (daysFromCivil py M 1)⟩
      hmem hsand1
      (by
        intro r2 hr2 hle2
        rw [hdf] at hr2
        simp at hr2
        rcases hr2 with rfl | rfl | rfl | rfl | rfl | rfl | rfl | rfl | rfl | rfl | rfl | rfl | rfl | rfl
        · dsimp only at hle2 ⊢
          have hx := week_start_mono _ _ (month_first_mono py 1 M (by omega) hmb1 hmb2)
          omega
        · dsimp only at hle2 ⊢
          exact mid_dom py M 1 d (by omega) (by omega) hmb1 hmb2 hsand2 hle2
        · dsimp only at hle2 ⊢
          exact mid_dom py M 2 d (by omega) (by omega) hmb1 hmb2 hsand2 hle2
        · dsimp only at hle2 ⊢
          exact mid_dom py M 3 d (by omega) (by omega) hmb1 hmb2 hsand2 hle2
        · dsimp only at hle2 ⊢
          exact mid_dom py M 4 d (by omega) (by omega) hmb1 hmb2 hsand2 hle2
        · dsimp only at hle2 ⊢
          exact mid_dom py M 5 d (by omega) (by omega) hmb1 hmb2 hsand2 hle2
        · dsimp only at hle2 ⊢
          exact mid_dom py M 6 d (by omega) (by omega) hmb1 hmb2 hsand2 hle2
        · dsimp only at hle2 ⊢
          exact mid_dom py M 7 d (by omega) (by omega) hmb1 hmb2 hsand2 hle2
        · dsimp only at hle2 ⊢
          exact mid_dom py M 8 d (by omega) (by omega) hmb1 hmb2 hsand2 hle2
        · dsimp only at hle2 ⊢
          exact mid_dom py M 9 d (by omega) (by omega) hmb1 hmb2 hsand2 hle2
        · dsimp only at hle2 ⊢
          exact mid_dom py M 10 d (by omega) (by omega) hmb1 hmb2 hsand2 hle2
        · dsimp only at hle2 ⊢
          exact mid_dom py M 11 d (by omega) (by omega) hmb1 hmb2 hsand2 hle2
        · dsimp only at hle2 ⊢
          exact mid_dom py M 12 d (by omega) (by omega) hmb1 hmb2 hsand2 hle2
        · dsimp only at hle2 ⊢
          omega)
      (by
        intro r2 hr2 heq
        rw [hdf] at hr2
        simp at hr2
        rcases hr2 with rfl | rfl | rfl | rfl | rfl | rfl | rfl | rfl | rfl | rfl | rfl | rfl | rfl | rfl
        · dsimp only at heq
          have hx := week_start_mono _ _ (month_first_mono py 1 M (by omega) hmb1 hmb2)
          exfalso
          omega
        · dsimp only at heq ⊢
          simp only [DateTableRow.mk.injEq]
          refine ⟨trivial, ?_, heq⟩
          exact mid_uniq py M 1 d (by omega) (by omega) hmb1 hmb2 hsand1 hsand2 heq
        · dsimp only at heq ⊢
          simp only [DateTableRow.mk.injEq]
          refine ⟨trivial, ?_, heq⟩
          exact mid_uniq py M 2 d (by omega) (by omega) hmb1 hmb2 hsand1 hsand2 heq
        · dsimp only at heq ⊢
          simp only [DateTableRow.mk.injEq]
          refine ⟨trivial, ?_, heq⟩
          exact mid_uniq py M 3 d (by omega) (by omega) hmb1 hmb2 hsand1 hsand2 heq
        · dsimp only at heq ⊢
          simp only [DateTableRow.mk.injEq]
          refine ⟨trivial, ?_, heq⟩
          exact mid_uniq py M 4 d (by omega) (by omega) hmb1 hmb2 hsand1 hsand2 heq
        · dsimp only at heq ⊢
          simp only [DateTableRow.mk.injEq]
          refine ⟨trivial, ?_, heq⟩
          exact mid_uniq py M 5 d (by omega) (by omega) hmb1 hmb2 hsand1 hsand2 heq
        · dsimp only at heq ⊢
          simp only [DateTableRow.mk.injEq]
          refine ⟨trivial, ?_, heq⟩
          exact mid_uniq py M 6 d (by omega) (by omega) hmb1 hmb2 hsand1 hsand2 heq
        · dsimp only at heq ⊢
          simp only [DateTableRow.mk.injEq]
          refine ⟨trivial, ?_, heq⟩
          exact mid_uniq py M 7 d (by omega) (by omega) hmb1 hmb2 hsand1 hsand2 heq
        · dsimp only at heq ⊢
          simp only [DateTableRow.mk.injEq]
          refine ⟨trivial, ?_, heq⟩
          exact mid_uniq py M 8 d (by omega) (by omega) hmb1 hmb2 hsand1 hsand2 heq
        · dsimp only at heq ⊢
          simp only [DateTableRow.mk.injEq]
          refine ⟨trivial, ?_, heq⟩
          exact mid_uniq py M 9 d (by omega) (by omega) hmb1 hmb2 hsand1 hsand2 heq
        · dsimp only at heq ⊢
          simp only [DateTableRow.mk.injEq]
          refine ⟨trivial, ?_, heq⟩
          exact mid_uniq py M 10 d (by omega) (by omega) hmb1 hmb2 hsand1 hsand2 heq
        · dsimp only at heq ⊢
          simp only [DateTableRow.mk.injEq]
          refine ⟨trivial, ?_, heq⟩
          exact mid_uniq py M 11 d (by omega) (by omega) hmb1 hmb2 hsand1 hsand2 heq
        · dsimp only at heq ⊢
          simp only [DateTableRow.mk.injEq]
          refine ⟨trivial, ?_, heq⟩
          exact mid_uniq py M 12 d (by omega) (by omega) hmb1 hmb2 hsand1 hsand2 heq
        · dsimp only at heq
          exfalso
          omega)
    exact ⟨_, hys, rfl, rfl⟩

theorem C6_table_equiv_witness :
    (seriesMin ((date_df 19358).map DateTableRow.month_start)).getD 0 ≤ 19400 ∧
    19400 < (seriesMax ((date_df 19358).map DateTableRow.month_start)).getD 0 ∧
    ∃ v, bc_date_values 19400 (date_df 19358) = some v ∧
      v.1 = (calc_year_month_ids 19400).1 ∧ v.2.2.1 = (calc_year_month_ids 19400).2.1 :=
  ⟨by decide, by decide, C6_table_equiv 19358 19400 (by decide) (by decide)⟩
